import Mathlib

/-!
# Todo resource service (main.go)

A shallow embedding of the five HTTP handlers of `main.go`
(`createTodo`, `getTodo`, `updateTodo`, `deleteTodo`, `listTodos`).

* A handler is a function from the request, the readings of the environment it
  takes (`time.Now()`, `gocql.TimeUUID()`) and the store state to an `Outcome`:
  the HTTP response, the store state afterwards and the statements it sent.
* The library functions the handlers call (`gocql.ParseUUID`, `strconv.Atoi`)
  and the store session (`session.Query(...).Exec()` / `.Scan(...)`) are
  parameters (`Lib`, `Session`); reference instances (`goLib`, `tableSession`)
  allow evaluation on concrete requests.
-/

namespace Todos

/-! ## Data model -/

/-- The type gocql.UUID, sixteen bytes, kept as the number the bytes spell in big-endian order.
The zero value of the Go type is the number 0. -/
structure UUID where
  val : Nat
deriving DecidableEq, Repr

/-- The zero value of gocql.UUID (what a Go variable of that type holds before assignment). -/
def UUID.zero : UUID := ⟨0⟩

/-- A reading of `time.Now()`: whole seconds since the Unix epoch (the clock of a running
server is past the epoch) and the nanoseconds within that second. -/
structure Time where
  sec : Nat
  nsec : Nat
deriving DecidableEq, Repr

/-- The method `time.Time.Unix`: the epoch seconds of a reading. -/
def Time.Unix (t : Time) : Int := (t.sec : Int)

/-- The struct `Todo` of main.go (lines 19-27). -/
structure Todo where
  ID : UUID
  UserID : String
  Title : String
  Description : String
  Status : String
  Created : Int
  Updated : Int
deriving DecidableEq, Repr

/-- The JSON object of a request body read at the seven json tags of `Todo`;
a key the body does not carry is `none`. -/
structure JsonTodo where
  id : Option UUID
  user_id : Option String
  title : Option String
  description : Option String
  status : Option String
  created : Option Int
  updated : Option Int
deriving DecidableEq, Repr

/-- The call `json.NewDecoder(r.Body).Decode(&todo)` on a freshly declared `var todo Todo`:
`none` stands for a body on which Decode reports an error; otherwise every key the body
carries is stored in its field and every other field keeps the zero value of its type. -/
def Decode (body : Option JsonTodo) : Option Todo :=
  match body with
  | none => none
  | some j =>
    some { ID := j.id.getD UUID.zero
           UserID := j.user_id.getD ""
           Title := j.title.getD ""
           Description := j.description.getD ""
           Status := j.status.getD ""
           Created := j.created.getD 0
           Updated := j.updated.getD 0 }

/-- The type `url.Values`: the query parameters of the request URL, each key with its values. -/
abbrev Values := List (String × List String)

/-- The method `url.Values.Get`: the first value of the key, or the empty string when the key
is absent or has no value. -/
def Values.Get (v : Values) (key : String) : String :=
  match v.lookup key with
  | some (x :: _) => x
  | _ => ""

/-- The parts of an `*http.Request` the handlers read. -/
structure Request where
  pathId : String
  body : Option JsonTodo
  query : Values
deriving DecidableEq, Repr

/-- A Go value bound to a placeholder of a statement (`session.Query(stmt, values...)`). -/
inductive Value where
  | uuid (u : UUID)
  | text (s : String)
  | int64 (n : Int)
  | int (n : Int)
  | time (t : Time)
deriving DecidableEq, Repr

/-- A statement as handed to `session.Query`: its text and the values bound to its placeholders. -/
structure Query where
  stmt : String
  values : List Value
deriving DecidableEq, Repr

/-- The error of a store call: `gocql.ErrNotFound`, or any other error with its text. -/
inductive StoreError where
  | notFound
  | other (msg : String)
deriving DecidableEq, Repr

deriving instance DecidableEq for Except

/-- What a handler writes as the response body. -/
inductive Body where
  | empty
  | text (msg : String)
  | json (todo : Todo)
  | jsonList (todos : List Todo)
deriving DecidableEq, Repr

/-- The HTTP response of a handler: status code and body. -/
structure Response where
  status : Nat
  body : Body
deriving DecidableEq, Repr

/-- The call `http.Error(w, msg, code)`: the status code and the message as the body. -/
def httpError (msg : String) (code : Nat) : Response := ⟨code, .text msg⟩

/-- The result of running a handler: the response, the store state after it and the
statements it handed to the session, in order. -/
structure Outcome (σ : Type) where
  resp : Response
  store : σ
  sent : List Query
deriving DecidableEq, Repr

/-- The library functions the handlers call. -/
structure Lib where
  ParseUUID : String → Option UUID
  Atoi : String → Option Int

/-- The store session over states `σ`: `Exec` runs a write, `Scan` reads one row into the seven
fields of a Todo (getTodo), `ScanInto` reads into the slice of listTodos. -/
structure Session (σ : Type) where
  Exec : Query → σ → Except StoreError σ
  Scan : Query → σ → Except StoreError Todo
  ScanInto : Query → σ → Except StoreError (List Todo)

/-- Go arithmetic on `int` (64 bits): the result of an operation wraps into
the range from -2^63 to 2^63 - 1. -/
def wrapInt (n : Int) : Int := (n + 2 ^ 63) % 2 ^ 64 - 2 ^ 63

/-! ## Statement texts of main.go -/

/-- The statement text of createTodo (main.go line 86). -/
def insertStmt : String :=
  "INSERT INTO todos (id, user_id, title, description, status, created, updated) VALUES (?, ?, ?, ?, ?, ?, ?)"

/-- The statement text of getTodo (main.go line 115). -/
def selectStmt : String :=
  "SELECT id, user_id, title, description, status, created, updated FROM todos WHERE id = ?"

/-- The statement text of updateTodo (main.go line 159). -/
def updateStmt : String :=
  "UPDATE todos SET title = ?, description = ?, status = ?, updated = ? WHERE id = ?"

/-- The statement text of deleteTodo (main.go line 184). -/
def deleteStmt : String := "DELETE FROM todos WHERE id = ?"

/-! ## Handlers -/

/-- The handler createTodo, main.go lines 58-99. `now` is the reading of `time.Now()` and
`fresh` the result of `gocql.TimeUUID()`. -/
def createTodo {σ : Type} (db : Session σ) (now : Time) (fresh : UUID) (r : Request) (s : σ) :
    Outcome σ :=
  match Decode r.body with
  | none => ⟨httpError "Invalid request body" 400, s, []⟩
  | some todo =>
    if todo.Title = "" then ⟨httpError "Title is required" 400, s, []⟩
    else if todo.UserID = "" then ⟨httpError "UserID is required" 400, s, []⟩
    else
      let todo := { todo with ID := fresh }
      let currentTime := now.Unix
      let todo := { todo with Created := currentTime, Updated := currentTime }
      let q : Query :=
        ⟨insertStmt,
          [.uuid todo.ID, .text todo.UserID, .text todo.Title, .text todo.Description,
            .text todo.Status, .int64 todo.Created, .int64 todo.Updated]⟩
      match db.Exec q s with
      | .error _ => ⟨httpError "Failed to create TODO item" 500, s, [q]⟩
      | .ok s1 => ⟨⟨201, .json todo⟩, s1, [q]⟩

/-- The handler getTodo, main.go lines 101-129. -/
def getTodo {σ : Type} (L : Lib) (db : Session σ) (r : Request) (s : σ) : Outcome σ :=
  match L.ParseUUID r.pathId with
  | none => ⟨httpError "Invalid todo ID" 400, s, []⟩
  | some id =>
    let q : Query := ⟨selectStmt, [.uuid id]⟩
    match db.Scan q s with
    | .error err =>
      if err = StoreError.notFound then ⟨httpError "Todo item not found" 404, s, [q]⟩
      else ⟨httpError "Failed to retrieve TODO item" 500, s, [q]⟩
    | .ok todo => ⟨⟨200, .json todo⟩, s, [q]⟩

/-- The handler updateTodo, main.go lines 131-169. `now` is the reading of `time.Now()`, which
line 160 binds as it is. -/
def updateTodo {σ : Type} (L : Lib) (db : Session σ) (now : Time) (r : Request) (s : σ) :
    Outcome σ :=
  match L.ParseUUID r.pathId with
  | none => ⟨httpError "Invalid todo ID" 400, s, []⟩
  | some id =>
    match Decode r.body with
    | none => ⟨httpError "Failed to decode request body" 400, s, []⟩
    | some updatedTodo =>
      if updatedTodo.ID ≠ id then ⟨httpError "Todo ID mismatch" 400, s, []⟩
      else
        let q : Query :=
          ⟨updateStmt,
            [.text updatedTodo.Title, .text updatedTodo.Description, .text updatedTodo.Status,
              .time now, .uuid id]⟩
        match db.Exec q s with
        | .error _ => ⟨httpError "Failed to update TODO item" 500, s, [q]⟩
        | .ok s1 => ⟨⟨204, .empty⟩, s1, [q]⟩

/-- The handler deleteTodo, main.go lines 171-194. -/
def deleteTodo {σ : Type} (L : Lib) (db : Session σ) (r : Request) (s : σ) : Outcome σ :=
  match L.ParseUUID r.pathId with
  | none => ⟨httpError "Invalid todo ID" 400, s, []⟩
  | some id =>
    let q : Query := ⟨deleteStmt, [.uuid id]⟩
    match db.Exec q s with
    | .error _ => ⟨httpError "Failed to delete TODO item" 500, s, [q]⟩
    | .ok s1 => ⟨⟨204, .empty⟩, s1, [q]⟩

/-- The text listTodos builds for its statement (main.go lines 227-235) from the `status` and
`sort` parameters; `sort` is overwritten and never used. -/
def listQueryText (status sort : String) : String :=
  let query := "SELECT * FROM todos"
  let query := if status ≠ "" then query ++ (" WHERE status = '" ++ status ++ "'") else query
  let _sort := if sort ≠ "" then "created_at_asc" else sort
  query ++ " LIMIT ? OFFSET ?"

/-- The handler listTodos, main.go lines 196-257. `json.Marshal` of a slice of Todo values reports
no error, so its error branch (lines 248-252) has no counterpart here. -/
def listTodos {σ : Type} (L : Lib) (db : Session σ) (r : Request) (s : σ) : Outcome σ :=
  let pageStr := r.query.Get "page"
  let sizeStr := r.query.Get "size"
  let status := r.query.Get "status"
  let sort := r.query.Get "sort"
  match (if pageStr ≠ "" then L.Atoi pageStr else some 1) with
  | none => ⟨httpError "Invalid page number" 400, s, []⟩
  | some page =>
    match (if sizeStr ≠ "" then L.Atoi sizeStr else some 10) with
    | none => ⟨httpError "Invalid page size" 400, s, []⟩
    | some size =>
      let q : Query :=
        ⟨listQueryText status sort, [.int size, .int (wrapInt (wrapInt (page - 1) * size))]⟩
      match db.ScanInto q s with
      | .error _ => ⟨httpError "Failed to fetch TODO items" 500, s, [q]⟩
      | .ok todoList => ⟨⟨200, .jsonList todoList⟩, s, [q]⟩

/-! ## Reference instances of the library functions -/

/-- Value of one hexadecimal digit, `none` for any other character. -/
def hexVal (c : Char) : Option Nat :=
  if '0' ≤ c ∧ c ≤ '9' then some (c.toNat - 48)
  else if 'a' ≤ c ∧ c ≤ 'f' then some (c.toNat - 87)
  else if 'A' ≤ c ∧ c ≤ 'F' then some (c.toNat - 55)
  else none

/-- The scanning loop of the reference UUID parser: `j` hexadecimal digits read so far with
value `acc`; a hyphen is skipped between two bytes. -/
def parseUUIDLoop : List Char → Nat → Nat → Option (Nat × Nat)
  | [], j, acc => some (j, acc)
  | c :: cs, j, acc =>
    if c = '-' ∧ j % 2 = 0 then parseUUIDLoop cs j acc
    else
      match hexVal c with
      | some d => if j < 32 then parseUUIDLoop cs (j + 1) (acc * 16 + d) else none
      | none => none

/-- Reference instance of `gocql.ParseUUID` (library code, outside the repository): thirty-two
hexadecimal digits, hyphens allowed between bytes. -/
def goParseUUID (s : String) : Option UUID :=
  match parseUUIDLoop s.data 0 0 with
  | some (j, acc) => if j = 32 then some ⟨acc⟩ else none
  | none => none

/-- Value of a list of decimal digits, `none` when a character is no digit. -/
def digitsVal : List Char → Nat → Option Nat
  | [], acc => some acc
  | c :: cs, acc => if c.isDigit then digitsVal cs (acc * 10 + (c.toNat - 48)) else none

/-- Reference instance of `strconv.Atoi` (standard library, outside the repository) for a 64-bit
`int`: an optional sign, then at least one decimal digit, the value within the range of `int`. -/
def goAtoi (s : String) : Option Int :=
  let signed : Bool × List Char :=
    match s.data with
    | '-' :: rest => (true, rest)
    | '+' :: rest => (false, rest)
    | rest => (false, rest)
  if signed.2 = [] then none
  else
    match digitsVal signed.2 0 with
    | none => none
    | some n =>
      let v : Int := if signed.1 then -(n : Int) else (n : Int)
      if -(2 ^ 63 : Int) ≤ v ∧ v < 2 ^ 63 then some v else none

/-- The reference library. -/
def goLib : Lib := ⟨goParseUUID, goAtoi⟩

/-! ## Reference store: one table keyed by id -/

/-- Modelled from the spec: the CQL type of the `created` and `updated` columns. The table
definition is not part of the repository; the spec calls both columns integers, which the
driver accepts for a `bigint` and for a `timestamp` column. -/
inductive ColType where
  | bigint
  | timestamp
deriving DecidableEq, Repr

/-- Modelled from the spec: what the repository leaves open about the store, namely the type
of the two time columns and whether an UPDATE of an id without a row creates one (spec 4.3
and 9, "upsert-like stores may silently create"). -/
structure Schema where
  stamp : ColType
  upsert : Bool
deriving DecidableEq, Repr

/-- Modelled from the spec: a row of the table `todos` (spec 6, "one table keyed by id, columns
user_id, title, description, status, created, updated"); a column never written is `none`. -/
structure Row where
  id : UUID
  user_id : Option String
  title : Option String
  description : Option String
  status : Option String
  created : Option Int
  updated : Option Int
deriving DecidableEq, Repr

/-- Modelled from the spec: the state of the store, the rows of the table `todos`. -/
abbrev Table := List Row

/-- Modelled from the spec: the number stored in a time column for a bound Go value. The
spec has both columns hold integers, so an `int64` is stored as it is. The spec gives no
conversion for a `time.Time`; the gocql driver turns it into milliseconds since the epoch
for a `timestamp` column and refuses it for a `bigint` column. -/
def marshalStamp : ColType → Value → Option Int
  | _, .int64 n => some n
  | .timestamp, .time t => some ((t.sec : Int) * 1000 + ((t.nsec / 1000000 : Nat) : Int))
  | _, _ => none

/-- Modelled from the spec: the Todo that scanning a row into the seven fields yields; an
unwritten column leaves the zero value. -/
def Row.toTodo (x : Row) : Todo :=
  { ID := x.id
    UserID := x.user_id.getD ""
    Title := x.title.getD ""
    Description := x.description.getD ""
    Status := x.status.getD ""
    Created := x.created.getD 0
    Updated := x.updated.getD 0 }

/-- Modelled from the spec: the row with the given id, if any. -/
def Table.lookup (t : Table) (id : UUID) : Option Row :=
  t.find? (fun x => decide (x.id = id))

/-- Modelled from the spec: INSERT writes all columns of the row with the key of `row`. -/
def Table.put (t : Table) (row : Row) : Table :=
  if t.any (fun x => decide (x.id = row.id)) then
    t.map (fun x => if x.id = row.id then row else x)
  else t ++ [row]

/-- Modelled from the spec: UPDATE sets title, description, status and updated of the row with
the key `id` and no other column; without such a row it creates one from these columns when
the store upserts and does nothing otherwise. -/
def Table.set (upsert : Bool) (t : Table) (id : UUID) (title description status : String)
    (updated : Int) : Table :=
  if t.any (fun x => decide (x.id = id)) then
    t.map (fun x =>
      if x.id = id then
        { x with title := some title, description := some description, status := some status,
                 updated := some updated }
      else x)
  else if upsert then
    t ++ [{ id := id, user_id := none, title := some title, description := some description,
            status := some status, created := none, updated := some updated }]
  else t

/-- Modelled from the spec: DELETE removes the row with the key `id` if there is one (spec 4.4). -/
def Table.remove (t : Table) (id : UUID) : Table :=
  t.filter (fun x => decide (x.id ≠ id))

/-- Modelled from the spec: the store running one of the three write statements of main.go on
the table. -/
def tableExec (sc : Schema) (q : Query) (t : Table) : Except StoreError Table :=
  if q.stmt = insertStmt then
    match q.values with
    | [.uuid id, .text user, .text title, .text description, .text status, c, u] =>
      match marshalStamp sc.stamp c, marshalStamp sc.stamp u with
      | some created, some updated =>
        .ok (t.put ⟨id, some user, some title, some description, some status, some created,
          some updated⟩)
      | _, _ => .error (.other "can not marshal value")
    | _ => .error (.other "wrong bound values")
  else if q.stmt = updateStmt then
    match q.values with
    | [.text title, .text description, .text status, u, .uuid id] =>
      match marshalStamp sc.stamp u with
      | some updated => .ok (t.set sc.upsert id title description status updated)
      | none => .error (.other "can not marshal value")
    | _ => .error (.other "wrong bound values")
  else if q.stmt = deleteStmt then
    match q.values with
    | [.uuid id] => .ok (t.remove id)
    | _ => .error (.other "wrong bound values")
  else .error (.other "unknown statement")

/-- Modelled from the spec: the store running the SELECT by id of getTodo; no row is
`gocql.ErrNotFound`. -/
def tableScan (q : Query) (t : Table) : Except StoreError Todo :=
  if q.stmt = selectStmt then
    match q.values with
    | [.uuid id] =>
      match t.lookup id with
      | some x => .ok x.toTodo
      | none => .error .notFound
    | _ => .error (.other "wrong bound values")
  else .error (.other "unknown statement")

/-- Modelled from the spec: a session on the table. `fault` is the failure of the store during
this request, if any (connectivity and the like); `list` runs the statement of listTodos,
which this model leaves open. -/
def tableSession (sc : Schema) (list : Query → Table → Except StoreError (List Todo))
    (fault : Option StoreError) : Session Table :=
  { Exec := fun q t =>
      match fault with
      | some e => .error e
      | none => tableExec sc q t
    Scan := fun q t =>
      match fault with
      | some e => .error e
      | none => tableScan q t
    ScanInto := fun q t =>
      match fault with
      | some e => .error e
      | none => list q t }

/-- A list runner that returns no rows, for evaluation on concrete requests. -/
def noList : Query → Table → Except StoreError (List Todo) := fun _ _ => .ok []

/-! ## The predicate of the list statement -/

/-- The single quote character. -/
def quoteChar : Char := Char.ofNat 39

/-- Doubling of every single quote of a text. -/
def escapeQuotes : List Char → List Char
  | [] => []
  | c :: cs => if c = quoteChar then c :: c :: escapeQuotes cs else c :: escapeQuotes cs

/-- Modelled from the spec: the CQL string constant that denotes a text, the text between
single quotes with every single quote inside doubled. "status equals the given value"
(spec 4.5) is the predicate `status = ` followed by this constant. -/
def cqlStringLiteral (s : String) : String :=
  String.mk (quoteChar :: (escapeQuotes s.data ++ [quoteChar]))

/-- The page number listTodos works with (main.go lines 205-216): the parsed `page` value, 1
when the value is empty, `none` when it does not parse. -/
def pageParam (L : Lib) (r : Request) : Option Int :=
  if r.query.Get "page" ≠ "" then L.Atoi (r.query.Get "page") else some 1

/-- The page size listTodos works with (main.go lines 206-224): the parsed `size` value, 10
when the value is empty, `none` when it does not parse. -/
def sizeParam (L : Lib) (r : Request) : Option Int :=
  if r.query.Get "size" ≠ "" then L.Atoi (r.query.Get "size") else some 10

/-! ## Runs of requests against the reference store -/

/-- One of the three requests that write: create (with the id `gocql.TimeUUID()` returns during
it), update, delete. -/
inductive Call where
  | create (r : Request) (fresh : UUID)
  | update (r : Request)
  | delete (r : Request)
deriving DecidableEq, Repr

/-- Whether the request is an update. -/
def Call.isUpdate : Call → Bool
  | .update _ => true
  | _ => false

/-- A request together with the reading of the clock during it and the failure of the store
during it, if any. -/
structure Step where
  call : Call
  now : Time
  fault : Option StoreError
deriving DecidableEq, Repr

/-- The handler of the request, run on the reference store. -/
def Step.run (L : Lib) (sc : Schema) (list : Query → Table → Except StoreError (List Todo))
    (st : Step) (t : Table) : Outcome Table :=
  match st.call with
  | .create r fresh => createTodo (tableSession sc list st.fault) st.now fresh r t
  | .update r => updateTodo L (tableSession sc list st.fault) st.now r t
  | .delete r => deleteTodo L (tableSession sc list st.fault) r t

/-- The store state after a sequence of requests, each handled on the state the previous one
left. -/
def runAll (L : Lib) (sc : Schema) (list : Query → Table → Except StoreError (List Todo)) :
    List Step → Table → Table
  | [], t => t
  | st :: rest, t => runAll L sc list rest (st.run L sc list t).store

/-! ## Concrete requests used for evaluation -/

/-- The path text of the id with number 77. -/
def pathOf77 : String := "00000000-0000-0000-0000-00000000004d"

/-- A body with a title and a user id and no id key. -/
def milkBody : JsonTodo := ⟨none, some "u1", some "buy milk", none, none, none, none⟩

/-- A body with a user id and no title. -/
def untitledBody : JsonTodo := ⟨none, some "u1", none, none, none, none, none⟩

/-- A body that carries the id with number 77 and new field values. -/
def eggsBody : JsonTodo :=
  ⟨some ⟨77⟩, none, some "buy milk and eggs", none, some "pending", none, none⟩

/-- A reading of the clock. -/
def noon : Time := ⟨1700000000, 5⟩

/-- A later reading of the clock. -/
def later : Time := ⟨1700000100, 123456789⟩

/-- The reference session with `bigint` time columns, no fault. -/
def bigintDb : Session Table := tableSession ⟨.bigint, true⟩ noList none

/-- The reference session with `timestamp` time columns, no fault. -/
def timestampDb : Session Table := tableSession ⟨.timestamp, true⟩ noList none

/-- A table holding the Todo created from `milkBody` at `noon` under the id with number 77. -/
def milkTable : Table :=
  [⟨⟨77⟩, some "u1", some "buy milk", some "", some "", some 1700000000, some 1700000000⟩]

/-- The run of the spec scenario: create at `noon`, then update with the id in the body at
`later`. -/
def scenarioSteps : List Step :=
  [⟨.create ⟨"", some milkBody, []⟩ ⟨77⟩, noon, none⟩,
    ⟨.update ⟨pathOf77, some eggsBody, []⟩, later, none⟩]

/-- A list request for the second page of five records with status `done`. -/
def pagedRequest : Request := ⟨"", none, [("page", ["2"]), ("size", ["5"]), ("status", ["done"])]⟩

/-- The Todo created from `milkBody` at `noon` under the id with number 77. -/
def milkTodo : Todo := ⟨⟨77⟩, "u1", "buy milk", "", "", 1700000000, 1700000000⟩

/-- The reference session during a store failure. -/
def downDb : Session Table :=
  tableSession ⟨.bigint, true⟩ noList (some (.other "no connections available"))

/-! ## C1 -/

/-- C1: when the body decodes to a Todo with an empty title or an empty user id, createTodo
answers 400, hands no statement to the session and leaves the store state as it was,
whatever the session is. -/
theorem createTodo_empty_field_rejected {σ : Type} (db : Session σ) (now : Time) (fresh : UUID)
    (r : Request) (s : σ) (todo : Todo) (hdec : Decode r.body = some todo)
    (hempty : todo.Title = "" ∨ todo.UserID = "") :
    (createTodo db now fresh r s).resp.status = 400 ∧
      (createTodo db now fresh r s).sent = [] ∧
      (createTodo db now fresh r s).store = s := by
  unfold createTodo
  rw [hdec]
  rcases hempty with h | h
  · simp [h, httpError]
  · by_cases ht : todo.Title = ""
    · simp [ht, httpError]
    · simp [ht, h, httpError]

/-- Evaluation of C1 on a body without a title, against the reference store. -/
theorem createTodo_empty_field_rejected_witness :
    Decode (some untitledBody) = some ⟨UUID.zero, "u1", "", "", "", 0, 0⟩ ∧
      (createTodo bigintDb noon ⟨77⟩ ⟨"", some untitledBody, []⟩ milkTable).resp.status = 400 ∧
      (createTodo bigintDb noon ⟨77⟩ ⟨"", some untitledBody, []⟩ milkTable).sent = [] ∧
      (createTodo bigintDb noon ⟨77⟩ ⟨"", some untitledBody, []⟩ milkTable).store = milkTable :=
  ⟨by decide,
    createTodo_empty_field_rejected bigintDb noon ⟨77⟩ ⟨"", some untitledBody, []⟩ milkTable
      ⟨UUID.zero, "u1", "", "", "", 0, 0⟩ (by decide) (Or.inl (by decide))⟩

/-! ## C2 -/

/-- C2, as stated, fails: a body that carries no id key, sent to the path of the id with
number 77, is answered 400 "Todo ID mismatch" and no statement reaches the store. -/
theorem updateTodo_body_without_id_rejected :
    milkBody.id = none ∧ goLib.ParseUUID pathOf77 = some ⟨77⟩ ∧
      updateTodo goLib bigintDb later ⟨pathOf77, some milkBody, []⟩ milkTable =
        ⟨httpError "Todo ID mismatch" 400, milkTable, []⟩ := by
  decide

/-- C2, amended: when the path id parses and the body decodes, updateTodo answers
400 "Todo ID mismatch" exactly when the id field of the decoded Todo differs from the path
id, where a body without an id key decodes to the zero id; a rejected request sends nothing
and leaves the store as it was, any other request sends the UPDATE statement. A body without
an id key is therefore rejected unless the path id is the zero id. -/
theorem updateTodo_mismatch_iff {σ : Type} (L : Lib) (db : Session σ) (now : Time)
    (r : Request) (s : σ) (id : UUID) (j : JsonTodo) (hid : L.ParseUUID r.pathId = some id)
    (hbody : r.body = some j) :
    ((updateTodo L db now r s).resp = httpError "Todo ID mismatch" 400 ↔
        j.id.getD UUID.zero ≠ id) ∧
      (j.id.getD UUID.zero ≠ id →
        (updateTodo L db now r s).sent = [] ∧ (updateTodo L db now r s).store = s) ∧
      (j.id.getD UUID.zero = id →
        (updateTodo L db now r s).sent =
          [⟨updateStmt,
            [.text (j.title.getD ""), .text (j.description.getD ""), .text (j.status.getD ""),
              .time now, .uuid id]⟩]) ∧
      (j.id = none →
        ((updateTodo L db now r s).resp = httpError "Todo ID mismatch" 400 ↔
          id ≠ UUID.zero)) := by
  have key : ∀ h : j.id.getD UUID.zero = id → False,
      updateTodo L db now r s = ⟨httpError "Todo ID mismatch" 400, s, []⟩ := by
    intro h
    unfold updateTodo
    simp only [hid, hbody, Decode]
    rw [if_pos (by simpa using h)]
  have key2 : j.id.getD UUID.zero = id →
      (updateTodo L db now r s).resp ≠ httpError "Todo ID mismatch" 400 ∧
      (updateTodo L db now r s).sent =
          [⟨updateStmt,
            [.text (j.title.getD ""), .text (j.description.getD ""), .text (j.status.getD ""),
              .time now, .uuid id]⟩] := by
    intro h
    unfold updateTodo
    simp only [hid, hbody, Decode]
    rw [if_neg (by simp [h])]
    cases hex : db.Exec ⟨updateStmt,
            [.text (j.title.getD ""), .text (j.description.getD ""), .text (j.status.getD ""),
              .time now, .uuid id]⟩ s <;> simp [httpError]
  have main : ((updateTodo L db now r s).resp = httpError "Todo ID mismatch" 400 ↔
        j.id.getD UUID.zero ≠ id) := by
    constructor
    · intro h heq
      exact (key2 heq).1 h
    · intro h
      rw [key h]
  refine ⟨main, ?_, ?_, ?_⟩
  · intro h
    rw [key h]
    exact ⟨rfl, rfl⟩
  · intro h
    exact (key2 h).2
  · intro hnone
    rw [main, hnone]
    simp only [Option.getD_none]
    constructor
    · intro h heq
      exact h heq.symm
    · intro h heq
      exact h heq.symm

/-- Evaluation of the amended C2 on a body that carries the path id. -/
theorem updateTodo_mismatch_iff_witness :
    goLib.ParseUUID pathOf77 = some ⟨77⟩ ∧
      (updateTodo goLib timestampDb later ⟨pathOf77, some eggsBody, []⟩ milkTable).sent =
        [⟨updateStmt,
          [.text "buy milk and eggs", .text "", .text "pending", .time later, .uuid ⟨77⟩]⟩] :=
  ⟨by decide,
    (updateTodo_mismatch_iff goLib timestampDb later ⟨pathOf77, some eggsBody, []⟩ milkTable
      ⟨77⟩ eggsBody (by decide) rfl).2.2.1 (by decide)⟩

/-! ## C5 -/

/-- C5: when the body decodes to a Todo with a title and a user id and the store accepts the
statement createTodo sends, the answer is 201 with the decoded Todo whose id is the generated
id and whose created and updated are the epoch seconds of the clock reading; the one
statement sent is the INSERT that binds exactly the seven fields of the returned Todo, and
the store state is the one that statement produced. -/
theorem createTodo_success {σ : Type} (db : Session σ) (now : Time) (fresh : UUID)
    (r : Request) (s : σ) (todo : Todo) (hdec : Decode r.body = some todo)
    (ht : todo.Title ≠ "") (hu : todo.UserID ≠ "")
    (hok : ∀ q ∈ (createTodo db now fresh r s).sent, ∃ s1, db.Exec q s = .ok s1) :
    ∃ T : Todo,
      (createTodo db now fresh r s).resp = ⟨201, .json T⟩ ∧
      T.Created = now.Unix ∧ T.Updated = now.Unix ∧ T.ID = fresh ∧
      T.UserID = todo.UserID ∧ T.Title = todo.Title ∧ T.Description = todo.Description ∧
      T.Status = todo.Status ∧
      (createTodo db now fresh r s).sent =
        [⟨insertStmt,
          [.uuid T.ID, .text T.UserID, .text T.Title, .text T.Description, .text T.Status,
            .int64 T.Created, .int64 T.Updated]⟩] ∧
      db.Exec ⟨insertStmt,
          [.uuid T.ID, .text T.UserID, .text T.Title, .text T.Description, .text T.Status,
            .int64 T.Created, .int64 T.Updated]⟩ s = .ok (createTodo db now fresh r s).store := by
  refine ⟨{ todo with ID := fresh, Created := now.Unix, Updated := now.Unix }, ?_⟩
  have hsent : (createTodo db now fresh r s).sent =
      [⟨insertStmt,
        [.uuid fresh, .text todo.UserID, .text todo.Title, .text todo.Description,
          .text todo.Status, .int64 now.Unix, .int64 now.Unix]⟩] := by
    unfold createTodo
    simp only [hdec, if_neg ht, if_neg hu]
    cases db.Exec ⟨insertStmt,
        [.uuid fresh, .text todo.UserID, .text todo.Title, .text todo.Description,
          .text todo.Status, .int64 now.Unix, .int64 now.Unix]⟩ s <;> rfl
  obtain ⟨s1, hs1⟩ := hok _ (by rw [hsent]; exact List.mem_singleton.mpr rfl)
  have hall : createTodo db now fresh r s =
      ⟨⟨201, .json { todo with ID := fresh, Created := now.Unix, Updated := now.Unix }⟩, s1,
        [⟨insertStmt,
          [.uuid fresh, .text todo.UserID, .text todo.Title, .text todo.Description,
            .text todo.Status, .int64 now.Unix, .int64 now.Unix]⟩]⟩ := by
    unfold createTodo
    simp only [hdec, if_neg ht, if_neg hu, hs1]
  rw [hall]
  exact ⟨rfl, rfl, rfl, rfl, rfl, rfl, rfl, rfl, rfl, hs1⟩

/-- Evaluation of C5 on the body of the spec scenario, against the reference store. -/
theorem createTodo_success_witness :
    Decode (some milkBody) = some ⟨UUID.zero, "u1", "buy milk", "", "", 0, 0⟩ ∧
      ∃ T : Todo,
        (createTodo bigintDb noon ⟨77⟩ ⟨"", some milkBody, []⟩ []).resp = ⟨201, .json T⟩ ∧
        T.Created = noon.Unix ∧ T.Updated = noon.Unix ∧ T.ID = ⟨77⟩ ∧
        T.UserID = "u1" ∧ T.Title = "buy milk" ∧ T.Description = "" ∧ T.Status = "" ∧
        (createTodo bigintDb noon ⟨77⟩ ⟨"", some milkBody, []⟩ []).sent =
          [⟨insertStmt,
            [.uuid T.ID, .text T.UserID, .text T.Title, .text T.Description, .text T.Status,
              .int64 T.Created, .int64 T.Updated]⟩] ∧
        bigintDb.Exec ⟨insertStmt,
            [.uuid T.ID, .text T.UserID, .text T.Title, .text T.Description, .text T.Status,
              .int64 T.Created, .int64 T.Updated]⟩ [] =
          .ok (createTodo bigintDb noon ⟨77⟩ ⟨"", some milkBody, []⟩ []).store :=
  ⟨by decide,
    createTodo_success bigintDb noon ⟨77⟩ ⟨"", some milkBody, []⟩ []
      ⟨UUID.zero, "u1", "buy milk", "", "", 0, 0⟩ (by decide) (by decide) (by decide)
      (by
        intro q hq
        have hq2 : q = ⟨insertStmt,
            [.uuid ⟨77⟩, .text "u1", .text "buy milk", .text "", .text "",
              .int64 1700000000, .int64 1700000000]⟩ := by
          have hs : (createTodo bigintDb noon ⟨77⟩ ⟨"", some milkBody, []⟩ []).sent =
              [⟨insertStmt,
                [.uuid ⟨77⟩, .text "u1", .text "buy milk", .text "", .text "",
                  .int64 1700000000, .int64 1700000000]⟩] := by decide
          rw [hs] at hq
          exact List.mem_singleton.mp hq
        subst hq2
        exact ⟨milkTable, by decide⟩)⟩

/-! ## C6 -/

/-- C6: getTodo answers 400 with no statement sent when the path id does not parse; when it
parses to `id` it sends the SELECT by that id, leaves the store as it was, and answers 404
exactly when the store reports not-found, 500 with the fixed text "Failed to retrieve TODO
item" for every other store error whatever its text, and 200 with the scanned record when
the store returns one. -/
theorem getTodo_outcomes {σ : Type} (L : Lib) (db : Session σ) (r : Request) (s : σ) :
    (L.ParseUUID r.pathId = none →
        getTodo L db r s = ⟨httpError "Invalid todo ID" 400, s, []⟩) ∧
      (∀ id, L.ParseUUID r.pathId = some id →
        (getTodo L db r s).sent = [⟨selectStmt, [.uuid id]⟩] ∧
        (getTodo L db r s).store = s ∧
        ((getTodo L db r s).resp.status = 404 ↔
          db.Scan ⟨selectStmt, [.uuid id]⟩ s = .error .notFound) ∧
        (∀ e, db.Scan ⟨selectStmt, [.uuid id]⟩ s = .error e → e ≠ .notFound →
          (getTodo L db r s).resp = httpError "Failed to retrieve TODO item" 500) ∧
        (∀ todo, db.Scan ⟨selectStmt, [.uuid id]⟩ s = .ok todo →
          (getTodo L db r s).resp = ⟨200, .json todo⟩)) := by
  constructor
  · intro h
    unfold getTodo
    simp only [h]
  · intro id h
    unfold getTodo
    simp only [h]
    cases hscan : db.Scan ⟨selectStmt, [.uuid id]⟩ s with
    | error e =>
      by_cases he : e = StoreError.notFound
      · subst he
        simp [httpError]
      · simp [he, httpError]
    | ok todo => simp

/-- Evaluation of C6 on the reference store: a path that does not parse, a stored id, an id
with no row, and a store failure. -/
theorem getTodo_outcomes_witness :
    getTodo goLib bigintDb ⟨"77", none, []⟩ milkTable =
        ⟨httpError "Invalid todo ID" 400, milkTable, []⟩ ∧
      (getTodo goLib bigintDb ⟨pathOf77, none, []⟩ milkTable).resp = ⟨200, .json milkTodo⟩ ∧
      (getTodo goLib bigintDb ⟨pathOf77, none, []⟩ []).resp.status = 404 ∧
      (getTodo goLib downDb ⟨pathOf77, none, []⟩ milkTable).resp =
        httpError "Failed to retrieve TODO item" 500 :=
  ⟨(getTodo_outcomes goLib bigintDb ⟨"77", none, []⟩ milkTable).1 (by decide),
    ((getTodo_outcomes goLib bigintDb ⟨pathOf77, none, []⟩ milkTable).2 ⟨77⟩
      (by decide)).2.2.2.2 milkTodo (by decide),
    ((getTodo_outcomes goLib bigintDb ⟨pathOf77, none, []⟩ []).2 ⟨77⟩
      (by decide)).2.2.1.mpr (by decide),
    ((getTodo_outcomes goLib downDb ⟨pathOf77, none, []⟩ milkTable).2 ⟨77⟩
      (by decide)).2.2.2.1 (.other "no connections available") (by decide) (by decide)⟩

/-! ## C3 -/

/-- C3, evaluated on an accepted update: updateTodo binds the reading of the clock itself to
`updated`, not its epoch seconds, while createTodo binds epoch seconds. With `timestamp`
columns the store then holds milliseconds in `updated` (1700000100123, next to the
`created` value 1700000000 in seconds); with `bigint` columns the store refuses the value and
the answer is 500. -/
theorem updateTodo_binds_clock_reading :
    (updateTodo goLib timestampDb later ⟨pathOf77, some eggsBody, []⟩ milkTable).sent =
        [⟨updateStmt,
          [.text "buy milk and eggs", .text "", .text "pending", .time later, .uuid ⟨77⟩]⟩] ∧
      Value.time later ≠ Value.int64 later.Unix ∧
      (createTodo timestampDb noon ⟨77⟩ ⟨"", some milkBody, []⟩ []).sent =
        [⟨insertStmt,
          [.uuid ⟨77⟩, .text "u1", .text "buy milk", .text "", .text "",
            .int64 noon.Unix, .int64 noon.Unix]⟩] ∧
      (updateTodo goLib timestampDb later ⟨pathOf77, some eggsBody, []⟩ milkTable).resp =
        ⟨204, .empty⟩ ∧
      (updateTodo goLib timestampDb later ⟨pathOf77, some eggsBody, []⟩ milkTable).store =
        [⟨⟨77⟩, some "u1", some "buy milk and eggs", some "", some "pending",
          some 1700000000, some 1700000100123⟩] ∧
      later.Unix = 1700000100 ∧
      (updateTodo goLib bigintDb later ⟨pathOf77, some eggsBody, []⟩ milkTable).resp =
        httpError "Failed to update TODO item" 500 ∧
      (updateTodo goLib bigintDb later ⟨pathOf77, some eggsBody, []⟩ milkTable).store =
        milkTable := by
  decide

/-! ## C4 -/

/-- C4, evaluated: the statement text listTodos sends carries the value of `status` inside
it, so two status values give two texts, and the value is not among the bound values. -/
theorem listTodos_text_depends_on_status :
    (listTodos goLib bigintDb ⟨"", none, [("status", ["done"])]⟩ []).sent =
        [⟨"SELECT * FROM todos WHERE status = 'done' LIMIT ? OFFSET ?", [.int 10, .int 0]⟩] ∧
      (listTodos goLib bigintDb ⟨"", none, [("status", ["open"])]⟩ []).sent =
        [⟨"SELECT * FROM todos WHERE status = 'open' LIMIT ? OFFSET ?", [.int 10, .int 0]⟩] ∧
      ¬ (∀ a b sort : String, a ≠ "" → b ≠ "" → listQueryText a sort = listQueryText b sort) := by
  refine ⟨by decide, by decide, ?_⟩
  intro h
  exact absurd (h "done" "open" "" (by decide) (by decide)) (by decide)

/-! ## C8 -/

theorem wrapInt_modEq (a : Int) : wrapInt a ≡ a [ZMOD 2 ^ 64] := by
  unfold wrapInt Int.ModEq
  omega

theorem wrapInt_congr {a b : Int} (h : a ≡ b [ZMOD 2 ^ 64]) : wrapInt a = wrapInt b := by
  unfold wrapInt
  have h2 : (a + 2 ^ 63) ≡ (b + 2 ^ 63) [ZMOD 2 ^ 64] := h.add_right _
  unfold Int.ModEq at h2
  rw [h2]

theorem wrapInt_wrap_mul (a b : Int) : wrapInt (wrapInt a * b) = wrapInt (a * b) :=
  wrapInt_congr ((wrapInt_modEq a).mul_right b)

theorem wrapInt_of_range (n : Int) (hlo : -(2 ^ 63) ≤ n) (hhi : n < 2 ^ 63) : wrapInt n = n := by
  unfold wrapInt
  omega

theorem escapeQuotes_of_no_quote (cs : List Char) (h : quoteChar ∉ cs) : escapeQuotes cs = cs := by
  induction cs with
  | nil => rfl
  | cons c cs ih =>
    have hc : c ≠ quoteChar := fun e => h (by simp [e])
    have hcs : quoteChar ∉ cs := fun e => h (List.mem_cons_of_mem _ e)
    simp [escapeQuotes, hc, ih hcs]

theorem listQueryText_without_status (sort : String) :
    listQueryText "" sort = "SELECT * FROM todos LIMIT ? OFFSET ?" := by
  unfold listQueryText
  simp only [ne_eq, not_true_eq_false, if_false]
  decide

theorem listQueryText_of_no_quote (status sort : String) (hne : status ≠ "")
    (hq : quoteChar ∉ status.data) :
    listQueryText status sort =
      "SELECT * FROM todos WHERE status = " ++ cqlStringLiteral status ++ " LIMIT ? OFFSET ?" := by
  unfold listQueryText cqlStringLiteral
  simp only [ne_eq, hne, not_false_eq_true, if_true]
  rw [escapeQuotes_of_no_quote _ hq]
  apply String.ext
  simp [quoteChar]

/-- C8, as stated, fails on three requests. A `page` parameter supplied with an empty value
does not parse, yet the query runs with page 1. With page 3 and size 2^62 the offset sent is
-2^63, not (page-1)*size. With the status `it's` the statement text is not the predicate
"status equals it's", whose string constant doubles the quote. -/
theorem listTodos_claim_fails :
    goLib.Atoi "" = none ∧
      listTodos goLib bigintDb ⟨"", none, [("page", [""])]⟩ [] =
        ⟨⟨200, .jsonList []⟩, [], [⟨"SELECT * FROM todos LIMIT ? OFFSET ?", [.int 10, .int 0]⟩]⟩ ∧
      (listTodos goLib bigintDb
          ⟨"", none, [("page", ["3"]), ("size", ["4611686018427387904"])]⟩ []).sent =
        [⟨"SELECT * FROM todos LIMIT ? OFFSET ?",
          [.int 4611686018427387904, .int (-9223372036854775808)]⟩] ∧
      ((3 : Int) - 1) * 4611686018427387904 ≠ -9223372036854775808 ∧
      (listTodos goLib bigintDb ⟨"", none, [("status", ["it's"])]⟩ []).sent =
        [⟨"SELECT * FROM todos WHERE status = 'it's' LIMIT ? OFFSET ?", [.int 10, .int 0]⟩] ∧
      cqlStringLiteral "it's" = "'it''s'" := by
  decide

/-- C8, amended: listTodos answers 400 exactly when a non-empty `page` or `size` value does
not parse (an empty value counts as absent), and then sends nothing and leaves the store as it
was. Otherwise, with page 1 and size 10 for absent or empty values, it sends one statement
that binds the limit `size` and the offset (page-1)*size computed in wrapping 64-bit
arithmetic (equal to (page-1)*size when that is in range). The statement text has no WHERE
clause when `status` is empty, and for a non-empty `status` without a single quote it is
the predicate `status = ` followed by the string constant of the value. -/
theorem listTodos_pagination {σ : Type} (L : Lib) (db : Session σ) (r : Request) (s : σ) :
    ((listTodos L db r s).resp.status = 400 ↔
        ((r.query.Get "page" ≠ "" ∧ L.Atoi (r.query.Get "page") = none) ∨
          (r.query.Get "size" ≠ "" ∧ L.Atoi (r.query.Get "size") = none))) ∧
      ((listTodos L db r s).resp.status = 400 →
        (listTodos L db r s).sent = [] ∧ (listTodos L db r s).store = s) ∧
      (∀ page size : Int, pageParam L r = some page → sizeParam L r = some size →
        (listTodos L db r s).sent =
            [⟨listQueryText (r.query.Get "status") (r.query.Get "sort"),
              [.int size, .int (wrapInt ((page - 1) * size))]⟩] ∧
          (-(2 ^ 63) ≤ (page - 1) * size → (page - 1) * size < 2 ^ 63 →
            wrapInt ((page - 1) * size) = (page - 1) * size)) ∧
      (r.query.Get "status" = "" →
        listQueryText (r.query.Get "status") (r.query.Get "sort") =
          "SELECT * FROM todos LIMIT ? OFFSET ?") ∧
      (r.query.Get "status" ≠ "" → quoteChar ∉ (r.query.Get "status").data →
        listQueryText (r.query.Get "status") (r.query.Get "sort") =
          "SELECT * FROM todos WHERE status = " ++ cqlStringLiteral (r.query.Get "status") ++
            " LIMIT ? OFFSET ?") := by
  have hrun : ∀ page size : Int, pageParam L r = some page → sizeParam L r = some size →
      (listTodos L db r s).resp.status ≠ 400 ∧
      (listTodos L db r s).sent =
            [⟨listQueryText (r.query.Get "status") (r.query.Get "sort"),
              [.int size, .int (wrapInt ((page - 1) * size))]⟩] := by
    intro page size hp hs
    unfold pageParam at hp
    unfold sizeParam at hs
    unfold listTodos
    simp only [hp, hs]
    rw [wrapInt_wrap_mul]
    cases db.ScanInto ⟨listQueryText (r.query.Get "status") (r.query.Get "sort"),
        [.int size, .int (wrapInt ((page - 1) * size))]⟩ s <;> simp [httpError]
  have hpage : pageParam L r = none →
      listTodos L db r s = ⟨httpError "Invalid page number" 400, s, []⟩ := by
    intro hp
    unfold pageParam at hp
    unfold listTodos
    simp only [hp]
  have hsize : ∀ page, pageParam L r = some page → sizeParam L r = none →
      listTodos L db r s = ⟨httpError "Invalid page size" 400, s, []⟩ := by
    intro page hp hs
    unfold pageParam at hp
    unfold sizeParam at hs
    unfold listTodos
    simp only [hp, hs]
  have hpn : pageParam L r = none ↔
      (r.query.Get "page" ≠ "" ∧ L.Atoi (r.query.Get "page") = none) := by
    unfold pageParam
    by_cases h : r.query.Get "page" = "" <;> simp [h]
  have hsn : sizeParam L r = none ↔
      (r.query.Get "size" ≠ "" ∧ L.Atoi (r.query.Get "size") = none) := by
    unfold sizeParam
    by_cases h : r.query.Get "size" = "" <;> simp [h]
  refine ⟨?_, ?_, ?_, ?_, ?_⟩
  · rw [← hpn, ← hsn]
    cases hp : pageParam L r with
    | none => simp [hpage hp, httpError]
    | some page =>
      cases hs : sizeParam L r with
      | none => simp [hsize page hp hs, httpError]
      | some size => simpa using (hrun page size hp hs).1
  · intro h400
    cases hp : pageParam L r with
    | none => simp [hpage hp]
    | some page =>
      cases hs : sizeParam L r with
      | none => simp [hsize page hp hs]
      | some size => exact absurd h400 (hrun page size hp hs).1
  · intro page size hp hs
    exact ⟨(hrun page size hp hs).2, fun hlo hhi => wrapInt_of_range _ hlo hhi⟩
  · intro h
    rw [h]
    exact listQueryText_without_status _
  · intro hne hq
    exact listQueryText_of_no_quote _ _ hne hq

/-- Evaluation of the amended C8 on a request for page 2 of size 5 with status `done`, and on
a request whose page value is no number. -/
theorem listTodos_pagination_witness :
    (pageParam goLib pagedRequest = some 2 ∧ sizeParam goLib pagedRequest = some 5) ∧
      ((listTodos goLib bigintDb pagedRequest milkTable).sent =
          [⟨listQueryText (pagedRequest.query.Get "status") (pagedRequest.query.Get "sort"),
            [.int 5, .int (wrapInt ((2 - 1) * 5))]⟩] ∧
        (-(2 ^ 63) ≤ ((2 : Int) - 1) * 5 → ((2 : Int) - 1) * 5 < 2 ^ 63 →
          wrapInt ((2 - 1) * 5) = (2 - 1) * 5)) ∧
      listQueryText (pagedRequest.query.Get "status") (pagedRequest.query.Get "sort") =
        "SELECT * FROM todos WHERE status = " ++
          cqlStringLiteral (pagedRequest.query.Get "status") ++ " LIMIT ? OFFSET ?" ∧
      (listTodos goLib bigintDb ⟨"", none, [("page", ["two"])]⟩ milkTable).resp.status = 400 :=
  ⟨⟨by decide, by decide⟩,
    (listTodos_pagination goLib bigintDb pagedRequest milkTable).2.2.1 2 5 (by decide)
      (by decide),
    (listTodos_pagination goLib bigintDb pagedRequest milkTable).2.2.2.2 (by decide)
      (by decide),
    (listTodos_pagination goLib bigintDb ⟨"", none, [("page", ["two"])]⟩ milkTable).1.mpr
      (Or.inl ⟨by decide, by decide⟩)⟩

/-! ## The reference store -/

theorem updateStmt_ne_insertStmt : updateStmt ≠ insertStmt := by decide

theorem deleteStmt_ne_insertStmt : deleteStmt ≠ insertStmt := by decide

theorem deleteStmt_ne_updateStmt : deleteStmt ≠ updateStmt := by decide

theorem marshalStamp_int64 (c : ColType) (n : Int) : marshalStamp c (.int64 n) = some n := by
  cases c <;> rfl

theorem marshalStamp_time_ge (c : ColType) (now : Time) (u : Int)
    (h : marshalStamp c (.time now) = some u) : now.Unix ≤ u := by
  cases c with
  | bigint => simp [marshalStamp] at h
  | timestamp =>
    simp only [marshalStamp, Option.some.injEq] at h
    unfold Time.Unix
    omega

theorem tableExec_insert (sc : Schema) (t : Table) (id : UUID) (user title d st : String)
    (c u : Int) :
    tableExec sc ⟨insertStmt, [.uuid id, .text user, .text title, .text d, .text st, .int64 c,
        .int64 u]⟩ t =
      .ok (t.put ⟨id, some user, some title, some d, some st, some c, some u⟩) := by
  simp [tableExec, marshalStamp_int64]

theorem tableExec_update (sc : Schema) (t : Table) (id : UUID) (title d st : String)
    (now : Time) :
    tableExec sc ⟨updateStmt, [.text title, .text d, .text st, .time now, .uuid id]⟩ t =
      match marshalStamp sc.stamp (.time now) with
      | some updated => .ok (t.set sc.upsert id title d st updated)
      | none => .error (.other "can not marshal value") := by
  simp [tableExec, updateStmt_ne_insertStmt]

theorem tableExec_delete (sc : Schema) (t : Table) (id : UUID) :
    tableExec sc ⟨deleteStmt, [.uuid id]⟩ t = .ok (t.remove id) := by
  simp [tableExec, deleteStmt_ne_insertStmt, deleteStmt_ne_updateStmt]

theorem tableScan_select (t : Table) (id : UUID) :
    tableScan ⟨selectStmt, [.uuid id]⟩ t =
      match t.lookup id with
      | some x => .ok x.toTodo
      | none => .error .notFound := by
  simp [tableScan]

theorem find_map_of_same_key (p : Row → Bool) (f : Row → Row) (h : ∀ x, p (f x) = p x)
    (t : Table) : (t.map f).find? p = (t.find? p).map f := by
  induction t with
  | nil => rfl
  | cons a t ih =>
    simp only [List.map_cons, List.find?_cons, h a]
    cases p a <;> simp [ih]

theorem lookup_put (t : Table) (row : Row) : (t.put row).lookup row.id = some row := by
  unfold Table.put Table.lookup
  by_cases hany : t.any (fun x => decide (x.id = row.id)) = true
  · rw [if_pos hany]
    rw [find_map_of_same_key]
    · obtain ⟨x, hx, hxid⟩ := List.any_eq_true.mp hany
      cases hf : t.find? (fun x => decide (x.id = row.id)) with
      | none =>
        have := List.find?_eq_none.mp hf x hx
        exact absurd hxid this
      | some y =>
        have hy := List.find?_some hf
        simp only [decide_eq_true_eq] at hy
        simp [hy]
    · intro x
      by_cases hx : x.id = row.id <;> simp [hx]
  · rw [if_neg hany]
    have hnone : t.find? (fun x => decide (x.id = row.id)) = none := by
      rw [List.find?_eq_none]
      intro x hx hxid
      exact hany (List.any_eq_true.mpr ⟨x, hx, hxid⟩)
    simp [List.find?_append, hnone]

theorem remove_remove (t : Table) (id : UUID) : (t.remove id).remove id = t.remove id := by
  unfold Table.remove
  simp [List.filter_filter]

theorem remove_of_lookup_none (t : Table) (id : UUID) (h : t.lookup id = none) :
    t.remove id = t := by
  unfold Table.remove
  unfold Table.lookup at h
  rw [List.filter_eq_self]
  intro x hx
  have := List.find?_eq_none.mp h x hx
  simpa using this

/-! ## C7 -/

/-- C7: on the reference store with no store failure, for a path id that parses, deleteTodo
answers 204, a second deleteTodo with the same id answers 204 again and leaves the store in
the state the first one produced; no row with the id remains, and when no row had the id the
first delete leaves the store as it was. -/
theorem deleteTodo_twice (L : Lib) (sc : Schema)
    (list : Query → Table → Except StoreError (List Todo)) (r : Request) (t : Table) (id : UUID)
    (hid : L.ParseUUID r.pathId = some id) :
    (deleteTodo L (tableSession sc list none) r t).resp = ⟨204, .empty⟩ ∧
      (deleteTodo L (tableSession sc list none) r
          (deleteTodo L (tableSession sc list none) r t).store).resp = ⟨204, .empty⟩ ∧
      (deleteTodo L (tableSession sc list none) r
          (deleteTodo L (tableSession sc list none) r t).store).store =
        (deleteTodo L (tableSession sc list none) r t).store ∧
      (deleteTodo L (tableSession sc list none) r t).store.lookup id = none ∧
      (t.lookup id = none → (deleteTodo L (tableSession sc list none) r t).store = t) := by
  have h1 : ∀ t0 : Table, deleteTodo L (tableSession sc list none) r t0 =
      ⟨⟨204, .empty⟩, t0.remove id, [⟨deleteStmt, [.uuid id]⟩]⟩ := by
    intro t0
    unfold deleteTodo
    simp only [hid, tableSession, tableExec_delete]
  rw [h1 (deleteTodo L (tableSession sc list none) r t).store, h1 t]
  refine ⟨rfl, rfl, remove_remove t id, ?_, fun h => remove_of_lookup_none t id h⟩
  unfold Table.lookup Table.remove
  rw [List.find?_eq_none]
  intro x hx
  have := (List.mem_filter.mp hx).2
  simpa using this

/-- Evaluation of C7 on the table that holds the id with number 77. -/
theorem deleteTodo_twice_witness :
    goLib.ParseUUID pathOf77 = some ⟨77⟩ ∧
      (deleteTodo goLib bigintDb ⟨pathOf77, none, []⟩ milkTable).resp = ⟨204, .empty⟩ ∧
      (deleteTodo goLib bigintDb ⟨pathOf77, none, []⟩
          (deleteTodo goLib bigintDb ⟨pathOf77, none, []⟩ milkTable).store).resp =
        ⟨204, .empty⟩ ∧
      (deleteTodo goLib bigintDb ⟨pathOf77, none, []⟩
          (deleteTodo goLib bigintDb ⟨pathOf77, none, []⟩ milkTable).store).store =
        (deleteTodo goLib bigintDb ⟨pathOf77, none, []⟩ milkTable).store ∧
      (deleteTodo goLib bigintDb ⟨pathOf77, none, []⟩ milkTable).store.lookup ⟨77⟩ = none ∧
      (milkTable.lookup ⟨77⟩ = none →
        (deleteTodo goLib bigintDb ⟨pathOf77, none, []⟩ milkTable).store = milkTable) :=
  ⟨by decide,
    deleteTodo_twice goLib ⟨.bigint, true⟩ noList ⟨pathOf77, none, []⟩ milkTable ⟨77⟩
      (by decide)⟩

/-! ## C10 -/

/-- C10: on the reference store, when createTodo answers 201 with the record T, a getTodo
that follows on the resulting store with no store failure, for a path that parses to the id
of T, answers 200 with a record equal to T (all seven fields). -/
theorem create_then_get (L : Lib) (sc : Schema)
    (list : Query → Table → Except StoreError (List Todo)) (fault : Option StoreError)
    (now : Time) (fresh : UUID) (r g : Request) (t : Table) (T : Todo)
    (hcreated : (createTodo (tableSession sc list fault) now fresh r t).resp = ⟨201, .json T⟩)
    (hpath : L.ParseUUID g.pathId = some T.ID) :
    (getTodo L (tableSession sc list none) g
        (createTodo (tableSession sc list fault) now fresh r t).store).resp =
      ⟨200, .json T⟩ := by
  unfold createTodo at hcreated ⊢
  cases hdec : Decode r.body with
  | none => simp [hdec, httpError] at hcreated
  | some todo =>
    simp only [hdec] at hcreated ⊢
    by_cases ht : todo.Title = ""
    · simp [ht, httpError] at hcreated
    · by_cases hu : todo.UserID = ""
      · simp [ht, hu, httpError] at hcreated
      · simp only [if_neg ht, if_neg hu] at hcreated ⊢
        cases fault with
        | some e => simp [tableSession, httpError] at hcreated
        | none =>
          simp only [tableSession, tableExec_insert] at hcreated ⊢
          simp only [Response.mk.injEq, Body.json.injEq, true_and] at hcreated
          subst hcreated
          unfold getTodo
          simp only [hpath, tableScan_select]
          have := lookup_put t ⟨fresh, some todo.UserID, some todo.Title, some todo.Description,
            some todo.Status, some now.Unix, some now.Unix⟩
          simp only at this
          rw [this]
          simp [Row.toTodo]

/-- Evaluation of C10 on the spec scenario. -/
theorem create_then_get_witness :
    (createTodo bigintDb noon ⟨77⟩ ⟨"", some milkBody, []⟩ []).resp =
        ⟨201, .json ⟨⟨77⟩, "u1", "buy milk", "", "", 1700000000, 1700000000⟩⟩ ∧
      goLib.ParseUUID pathOf77 = some ⟨77⟩ ∧
      (getTodo goLib bigintDb ⟨pathOf77, none, []⟩
          (createTodo bigintDb noon ⟨77⟩ ⟨"", some milkBody, []⟩ []).store).resp =
        ⟨200, .json ⟨⟨77⟩, "u1", "buy milk", "", "", 1700000000, 1700000000⟩⟩ :=
  ⟨by decide, by decide,
    create_then_get goLib ⟨.bigint, true⟩ noList none noon ⟨77⟩ ⟨"", some milkBody, []⟩
      ⟨pathOf77, none, []⟩ [] ⟨⟨77⟩, "u1", "buy milk", "", "", 1700000000, 1700000000⟩
      (by decide) (by decide)⟩

/-! ## C9 -/

theorem mem_put {t : Table} {row x : Row} (h : x ∈ t.put row) : x ∈ t ∨ x = row := by
  unfold Table.put at h
  split at h
  · obtain ⟨y, hy, hxy⟩ := List.mem_map.mp h
    by_cases hid : y.id = row.id
    · rw [if_pos hid] at hxy
      exact Or.inr hxy.symm
    · rw [if_neg hid] at hxy
      exact Or.inl (hxy ▸ hy)
  · rcases List.mem_append.mp h with h1 | h1
    · exact Or.inl h1
    · exact Or.inr (List.mem_singleton.mp h1)

theorem mem_set {t : Table} {upsert : Bool} {id : UUID} {title d st : String} {u : Int}
    {x : Row} (h : x ∈ t.set upsert id title d st u) :
    x ∈ t ∨ ((∃ y ∈ t, x.created = y.created) ∧ x.updated = some u) ∨
      (x.created = none ∧ x.updated = some u) := by
  unfold Table.set at h
  split at h
  · obtain ⟨y, hy, hxy⟩ := List.mem_map.mp h
    by_cases hid : y.id = id
    · rw [if_pos hid] at hxy
      subst hxy
      exact Or.inr (Or.inl ⟨⟨y, hy, rfl⟩, rfl⟩)
    · rw [if_neg hid] at hxy
      exact Or.inl (hxy ▸ hy)
  · split at h
    · rcases List.mem_append.mp h with h1 | h1
      · exact Or.inl h1
      · have := List.mem_singleton.mp h1
        subst this
        exact Or.inr (Or.inr ⟨rfl, rfl⟩)
    · exact Or.inl h

theorem mem_remove {t : Table} {id : UUID} {x : Row} (h : x ∈ t.remove id) : x ∈ t :=
  (List.mem_filter.mp h).1

theorem createTodo_table_store (sc : Schema)
    (list : Query → Table → Except StoreError (List Todo)) (fault : Option StoreError)
    (now : Time) (fresh : UUID) (r : Request) (t : Table) :
    (createTodo (tableSession sc list fault) now fresh r t).store = t ∨
      ∃ user title d st,
        (createTodo (tableSession sc list fault) now fresh r t).store =
          t.put ⟨fresh, some user, some title, some d, some st, some now.Unix, some now.Unix⟩ := by
  unfold createTodo
  cases hdec : Decode r.body with
  | none => exact Or.inl rfl
  | some todo =>
    simp only
    by_cases ht : todo.Title = ""
    · rw [if_pos ht]
      exact Or.inl rfl
    · by_cases hu : todo.UserID = ""
      · rw [if_neg ht, if_pos hu]
        exact Or.inl rfl
      · rw [if_neg ht, if_neg hu]
        cases fault with
        | some e => exact Or.inl rfl
        | none =>
          simp only [tableSession, tableExec_insert]
          exact Or.inr ⟨_, _, _, _, rfl⟩

theorem updateTodo_table_store (L : Lib) (sc : Schema)
    (list : Query → Table → Except StoreError (List Todo)) (fault : Option StoreError)
    (now : Time) (r : Request) (t : Table) :
    (updateTodo L (tableSession sc list fault) now r t).store = t ∨
      ∃ id title d st u, now.Unix ≤ u ∧
        (updateTodo L (tableSession sc list fault) now r t).store =
          t.set sc.upsert id title d st u := by
  unfold updateTodo
  cases L.ParseUUID r.pathId with
  | none => exact Or.inl rfl
  | some id =>
    cases Decode r.body with
    | none => exact Or.inl rfl
    | some todo =>
      simp only
      by_cases hne : todo.ID ≠ id
      · rw [if_pos hne]
        exact Or.inl rfl
      · rw [if_neg hne]
        cases fault with
        | some e => exact Or.inl rfl
        | none =>
          simp only [tableSession, tableExec_update]
          cases hm : marshalStamp sc.stamp (.time now) with
          | none => exact Or.inl rfl
          | some u => exact Or.inr ⟨_, _, _, _, u, marshalStamp_time_ge _ _ _ hm, rfl⟩

theorem deleteTodo_table_store (L : Lib) (sc : Schema)
    (list : Query → Table → Except StoreError (List Todo)) (fault : Option StoreError)
    (r : Request) (t : Table) :
    (deleteTodo L (tableSession sc list fault) r t).store = t ∨
      ∃ id, (deleteTodo L (tableSession sc list fault) r t).store = t.remove id := by
  unfold deleteTodo
  cases L.ParseUUID r.pathId with
  | none => exact Or.inl rfl
  | some id =>
    cases fault with
    | some e => exact Or.inl rfl
    | none =>
      simp only [tableSession, tableExec_delete]
      exact Or.inr ⟨_, rfl⟩

theorem step_rows (L : Lib) (sc : Schema)
    (list : Query → Table → Except StoreError (List Todo)) (st : Step) (t : Table) (x : Row)
    (hx : x ∈ (st.run L sc list t).store) :
    x ∈ t ∨ (x.toTodo.Created = st.now.Unix ∧ x.toTodo.Updated = st.now.Unix) ∨
      ((∃ y ∈ t, x.toTodo.Created = y.toTodo.Created) ∧ st.now.Unix ≤ x.toTodo.Updated) ∨
      (x.toTodo.Created = 0 ∧ st.now.Unix ≤ x.toTodo.Updated) := by
  unfold Step.run at hx
  cases hc : st.call with
  | create r fresh =>
    rw [hc] at hx
    rcases createTodo_table_store sc list st.fault st.now fresh r t with h | ⟨_, _, _, _, h⟩
    · rw [h] at hx
      exact Or.inl hx
    · simp only at hx
      rw [h] at hx
      rcases mem_put hx with h1 | h1
      · exact Or.inl h1
      · subst h1
        exact Or.inr (Or.inl ⟨rfl, rfl⟩)
  | update r =>
    rw [hc] at hx
    rcases updateTodo_table_store L sc list st.fault st.now r t with h | ⟨_, _, _, _, u, hu, h⟩
    · rw [h] at hx
      exact Or.inl hx
    · simp only at hx
      rw [h] at hx
      rcases mem_set hx with h1 | ⟨⟨y, hy, hcy⟩, hup⟩ | ⟨hcn, hup⟩
      · exact Or.inl h1
      · refine Or.inr (Or.inr (Or.inl ⟨⟨y, hy, ?_⟩, ?_⟩))
        · simp [Row.toTodo, hcy]
        · simp [Row.toTodo, hup, hu]
      · refine Or.inr (Or.inr (Or.inr ⟨?_, ?_⟩))
        · simp [Row.toTodo, hcn]
        · simp [Row.toTodo, hup, hu]
  | delete r =>
    rw [hc] at hx
    rcases deleteTodo_table_store L sc list st.fault r t with h | ⟨_, h⟩
    · rw [h] at hx
      exact Or.inl hx
    · simp only at hx
      rw [h] at hx
      exact Or.inl (mem_remove hx)

theorem runAll_ordered (L : Lib) (sc : Schema)
    (list : Query → Table → Except StoreError (List Todo)) (steps : List Step) :
    ∀ t : Table, (∀ x ∈ t, x.toTodo.Created ≤ x.toTodo.Updated) →
      (∀ x ∈ t, ∀ st ∈ steps, x.toTodo.Created ≤ st.now.Unix) →
      steps.Pairwise (fun a b => a.now.Unix ≤ b.now.Unix) →
      ∀ x ∈ runAll L sc list steps t, x.toTodo.Created ≤ x.toTodo.Updated := by
  induction steps with
  | nil =>
    intro t h _ _ x hx
    exact h x hx
  | cons st rest ih =>
    intro t hord hbound hclock x hx
    have hnonneg : ∀ s : Step, (0 : Int) ≤ s.now.Unix := fun s => by
      unfold Time.Unix
      omega
    rw [List.pairwise_cons] at hclock
    refine ih (st.run L sc list t).store ?_ ?_ hclock.2 x hx
    · intro y hy
      rcases step_rows L sc list st t y hy with h | ⟨h1, h2⟩ | ⟨⟨z, hz, h1⟩, h2⟩ | ⟨h1, h2⟩
      · exact hord y h
      · rw [h1, h2]
      · have := hbound z hz st (List.mem_cons_self _ _)
        rw [h1]
        exact le_trans this h2
      · rw [h1]
        exact le_trans (hnonneg st) h2
    · intro y hy st2 hst2
      rcases step_rows L sc list st t y hy with h | ⟨h1, _⟩ | ⟨⟨z, hz, h1⟩, _⟩ | ⟨h1, _⟩
      · exact hbound y h st2 (List.mem_cons_of_mem _ hst2)
      · rw [h1]
        exact hclock.1 st2 hst2
      · rw [h1]
        exact hbound z hz st2 (List.mem_cons_of_mem _ hst2)
      · rw [h1]
        exact hnonneg st2

theorem runAll_append (L : Lib) (sc : Schema)
    (list : Query → Table → Except StoreError (List Todo)) (a b : List Step) :
    ∀ t : Table, runAll L sc list (a ++ b) t = runAll L sc list b (runAll L sc list a t) := by
  induction a with
  | nil => intro t; rfl
  | cons st rest ih =>
    intro t
    simp only [List.cons_append, runAll]
    exact ih _

theorem lookup_set_created (t : Table) (upsert : Bool) (id id0 : UUID) (title d st : String)
    (u : Int) (c : Option Int) (h : (t.lookup id0).map (fun x => x.created) = some c) :
    ((t.set upsert id title d st u).lookup id0).map (fun x => x.created) = some c := by
  unfold Table.lookup at h ⊢
  unfold Table.set
  split
  · rw [find_map_of_same_key]
    · cases hf : t.find? (fun x => decide (x.id = id0)) with
      | none => simp [hf] at h
      | some y =>
        simp only [hf, Option.map_some', Option.some.injEq] at h
        simp only [Option.map_some', Option.some.injEq]
        by_cases hy : y.id = id
        · simp [hy, h]
        · simp [hy, h]
    · intro x
      by_cases hx : x.id = id <;> simp [hx]
  · split
    · cases hf : t.find? (fun x => decide (x.id = id0)) with
      | none => simp [hf] at h
      | some y =>
        rw [List.find?_append, hf]
        simpa [hf] using h
    · exact h

theorem updates_keep_created (L : Lib) (sc : Schema)
    (list : Query → Table → Except StoreError (List Todo)) (id0 : UUID) (c : Option Int)
    (ups : List Step) :
    ∀ t : Table, (∀ u ∈ ups, u.call.isUpdate = true) →
      (t.lookup id0).map (fun x => x.created) = some c →
      ((runAll L sc list ups t).lookup id0).map (fun x => x.created) = some c := by
  induction ups with
  | nil => intro t _ h; exact h
  | cons st rest ih =>
    intro t hups h
    have hst := hups st (List.mem_cons_self _ _)
    refine ih (st.run L sc list t).store (fun u hu => hups u (List.mem_cons_of_mem _ hu)) ?_
    unfold Step.run
    cases hc : st.call with
    | create r fresh => simp [hc, Call.isUpdate] at hst
    | delete r => simp [hc, Call.isUpdate] at hst
    | update r =>
      simp only
      rcases updateTodo_table_store L sc list st.fault st.now r t with h1 | ⟨_, _, _, _, _, _, h1⟩
      · rw [h1]
        exact h
      · rw [h1]
        exact lookup_set_created _ _ _ _ _ _ _ _ _ h

theorem created_row_of_201 (sc : Schema)
    (list : Query → Table → Except StoreError (List Todo)) (fault : Option StoreError)
    (now : Time) (fresh : UUID) (r : Request) (t : Table) (T : Todo)
    (h : (createTodo (tableSession sc list fault) now fresh r t).resp = ⟨201, .json T⟩) :
    T.Created = now.Unix ∧
      ((createTodo (tableSession sc list fault) now fresh r t).store.lookup T.ID).map
        (fun x => x.created) = some (some T.Created) := by
  unfold createTodo at h ⊢
  cases hdec : Decode r.body with
  | none => simp [hdec, httpError] at h
  | some todo =>
    simp only [hdec] at h ⊢
    by_cases ht : todo.Title = ""
    · simp [ht, httpError] at h
    · by_cases hu : todo.UserID = ""
      · simp [ht, hu, httpError] at h
      · simp only [if_neg ht, if_neg hu] at h ⊢
        cases fault with
        | some e => simp [tableSession, httpError] at h
        | none =>
          simp only [tableSession, tableExec_insert] at h ⊢
          simp only [Response.mk.injEq, Body.json.injEq, true_and] at h
          subst h
          refine ⟨rfl, ?_⟩
          have := lookup_put t ⟨fresh, some todo.UserID, some todo.Title, some todo.Description,
            some todo.Status, some now.Unix, some now.Unix⟩
          simp only at this
          simp only [this, Option.map_some']

/-- C9: on the reference store, for every sequence of create, update and delete requests
(whether they succeed or not) run from the empty store with clock readings whose epoch
seconds never decrease, every row of the resulting store has created <= updated; and when
the sequence is some requests, then a create answered 201 with the record T, then only
updates, the row with the id of T still has the created value of T, which is the epoch
seconds of the clock reading of that create. -/
theorem timestamps_invariant (L : Lib) (sc : Schema)
    (list : Query → Table → Except StoreError (List Todo)) (steps : List Step)
    (hclock : steps.Pairwise (fun a b => a.now.Unix ≤ b.now.Unix)) :
    (∀ x ∈ runAll L sc list steps [], x.toTodo.Created ≤ x.toTodo.Updated) ∧
      (∀ (pre ups : List Step) (st : Step) (r : Request) (fresh : UUID) (T : Todo),
        steps = pre ++ st :: ups → st.call = .create r fresh →
        (st.run L sc list (runAll L sc list pre [])).resp = ⟨201, .json T⟩ →
        (∀ u ∈ ups, u.call.isUpdate = true) →
        T.Created = st.now.Unix ∧
          ((runAll L sc list steps []).lookup T.ID).map (fun x => x.toTodo.Created) =
            some T.Created) := by
  constructor
  · exact runAll_ordered L sc list steps [] (fun x hx => absurd hx (List.not_mem_nil x))
      (fun x hx => absurd hx (List.not_mem_nil x)) hclock
  · intro pre ups st r fresh T hsteps hcall h201 hups
    unfold Step.run at h201
    rw [hcall] at h201
    simp only at h201
    obtain ⟨hT, hrow⟩ := created_row_of_201 sc list st.fault st.now fresh r _ T h201
    refine ⟨hT, ?_⟩
    have hstore : (st.run L sc list (runAll L sc list pre [])).store =
        (createTodo (tableSession sc list st.fault) st.now fresh r
          (runAll L sc list pre [])).store := by
      unfold Step.run
      rw [hcall]
    have hkeep := updates_keep_created L sc list T.ID (some T.Created) ups
      (st.run L sc list (runAll L sc list pre [])).store hups (by rw [hstore]; exact hrow)
    rw [hsteps, runAll_append]
    simp only [runAll]
    cases hl : (runAll L sc list ups (st.run L sc list (runAll L sc list pre [])).store).lookup
        T.ID with
    | none => simp [hl] at hkeep
    | some y =>
      simp only [hl, Option.map_some', Option.some.injEq] at hkeep
      simp [Row.toTodo, hkeep]

/-- Evaluation of C9 on the spec scenario with `timestamp` columns. -/
theorem timestamps_invariant_witness :
    scenarioSteps.Pairwise (fun a b => a.now.Unix ≤ b.now.Unix) ∧
      ((∀ x ∈ runAll goLib ⟨.timestamp, true⟩ noList scenarioSteps [],
          x.toTodo.Created ≤ x.toTodo.Updated) ∧
        (∀ (pre ups : List Step) (st : Step) (r : Request) (fresh : UUID) (T : Todo),
          scenarioSteps = pre ++ st :: ups → st.call = .create r fresh →
          (st.run goLib ⟨.timestamp, true⟩ noList
            (runAll goLib ⟨.timestamp, true⟩ noList pre [])).resp = ⟨201, .json T⟩ →
          (∀ u ∈ ups, u.call.isUpdate = true) →
          T.Created = st.now.Unix ∧
            ((runAll goLib ⟨.timestamp, true⟩ noList scenarioSteps []).lookup T.ID).map
              (fun x => x.toTodo.Created) = some T.Created)) :=
  ⟨by decide, timestamps_invariant goLib ⟨.timestamp, true⟩ noList scenarioSteps (by decide)⟩

end Todos
